import Mathlib

/-
Verification of the route-proximity detection engine of the Japan_Bear_GPX
repository (src/bear_main.py and src/bear_gpx.py), shallowly embedded over ℚ.

Coordinates are modelled as rationals.  The shapely geometry calls of
bear_main.py (LineString, buffer, bounds, contains) are modelled by their
mathematical semantics on the ideal buffer:

* `LineString(points)` is the chain of segments between consecutive points,
  with x = first tuple component and y = second tuple component — exactly as
  shapely reads the tuples the script builds (which are (lat, lon) pairs).
* `line.buffer(r)` is the closed set of points at Euclidean distance ≤ r from
  the chain (the union of stadia around the segments).
* `polygon.contains(point)` is interior membership: distance < r.  (Shapely's
  `contains` is exclusive on the boundary; shapely's polygonal approximation
  of the buffer never contains points at distance exactly r either.)
* `polygon.bounds` is (min x − r, min y − r, max x + r, max y + r) over the
  chain's vertices, shapely's (minx, miny, maxx, maxy) for the ideal buffer.
-/

namespace BearGpx

/-- A planar point as consumed by the geometry layer: an (x, y) pair. -/
abbrev Pt := ℚ × ℚ

/-- One cleaned sighting row as produced by the ETL layer of bear_main.py:
columns latitude, longitude, sighting_datetime (nullable), sighting_condition,
source.  Timestamps are opaque here (`Option ℤ`, `none` = NaT). -/
structure BRec where
  lat : ℚ
  lon : ℚ
  dt : Option ℤ
  cond : String
  src : String
deriving DecidableEq

/-- Squared Euclidean distance between two planar points. -/
def distSqPts (p q : Pt) : ℚ := (p.1 - q.1) ^ 2 + (p.2 - q.2) ^ 2

/-- Clamp a parameter to the interval [0, 1]. -/
def clamp01 (t : ℚ) : ℚ := max 0 (min 1 t)

/-- Squared distance from point `p` to the segment from `a` to `b`
(orthogonal projection onto the segment's line, clamped to the segment;
a degenerate segment falls back to the distance to `a`). -/
def distSqToSegment (a b p : Pt) : ℚ :=
  if (b.1 - a.1) ^ 2 + (b.2 - a.2) ^ 2 = 0 then distSqPts p a
  else
    distSqPts p
      (a.1 + clamp01 (((p.1 - a.1) * (b.1 - a.1) + (p.2 - a.2) * (b.2 - a.2)) /
          ((b.1 - a.1) ^ 2 + (b.2 - a.2) ^ 2)) * (b.1 - a.1),
       a.2 + clamp01 (((p.1 - a.1) * (b.1 - a.1) + (p.2 - a.2) * (b.2 - a.2)) /
          ((b.1 - a.1) ^ 2 + (b.2 - a.2) ^ 2)) * (b.2 - a.2))

/-- The consecutive segments of a point chain (`LineString(points)`). -/
def segmentsOf (pts : List Pt) : List (Pt × Pt) := pts.zip pts.tail

/-- Minimum of a list of rationals (`none` on the empty list). -/
def minD : List ℚ → Option ℚ
  | [] => none
  | x :: xs => some (xs.foldl min x)

/-- Squared distance from `p` to the chain through `pts`
(`none` when the chain has no segment). -/
def minDistSqToRoute (pts : List Pt) (p : Pt) : Option ℚ :=
  minD ((segmentsOf pts).map (fun s => distSqToSegment s.1 s.2 p))

/-- `route_buffer.contains(Point(...))` of bear_main.py line 258 on the ideal
buffer of radius `r` around the chain `pts`: membership in the interior,
i.e. squared distance strictly below `r ^ 2`. -/
def bufferContains (pts : List Pt) (r : ℚ) (p : Pt) : Bool :=
  match minDistSqToRoute pts p with
  | none => false
  | some d => decide (d < r ^ 2)

/-- bear_main.py line 245: `buffer_dist = 0.005  # 约 500m`. -/
def buffer_dist : ℚ := 5 / 1000

/-- `route_buffer.bounds` (bear_main.py line 247) for the ideal buffer:
shapely's (minx, miny, maxx, maxy), where x/y are the first/second tuple
components of the points the script put into `LineString`. -/
def bufferBounds (pts : List Pt) (r : ℚ) : ℚ × ℚ × ℚ × ℚ :=
  match pts with
  | [] => (0, 0, 0, 0)
  | q :: qs =>
    ((qs.map Prod.fst).foldl min q.1 - r,
     (qs.map Prod.snd).foldl min q.2 - r,
     (qs.map Prod.fst).foldl max q.1 + r,
     (qs.map Prod.snd).foldl max q.2 + r)

/-- bear_main.py lines 247–253: `min_lon, min_lat, max_lon, max_lat =
route_buffer.bounds` followed by the dataframe mask
`(latitude >= min_lat) & (latitude <= max_lat) & (longitude >= min_lon) &
(longitude <= max_lon)`.  The local names follow the script; since the script
put (lat, lon) tuples into the geometry, `min_lon` actually receives the
minimal latitude coordinate and `min_lat` the minimal longitude coordinate. -/
def candidateFilter (pts : List Pt) (r : ℚ) (records : List BRec) : List BRec :=
  let b := bufferBounds pts r
  let min_lon := b.1
  let min_lat := b.2.1
  let max_lon := b.2.2.1
  let max_lat := b.2.2.2
  records.filter (fun row =>
    decide (min_lat ≤ row.lat) && decide (row.lat ≤ max_lat) &&
    decide (min_lon ≤ row.lon) && decide (row.lon ≤ max_lon))

/-- bear_main.py lines 256–259: the exact-detection loop over the candidates,
testing `route_buffer.contains(Point(row['latitude'], row['longitude']))`. -/
def dangerousBears (pts : List Pt) (records : List BRec) (r : ℚ) : List BRec :=
  (candidateFilter pts r records).filter
    (fun row => bufferContains pts r (row.lat, row.lon))

/-- Test track from the spec's end-to-end scenario 1:
[(35.000, 138.000), (35.010, 138.000)] as (lat, lon) pairs, passed to the
geometry exactly as the script passes them. -/
def exTrack : List Pt := [((35 : ℚ), 138), (3501 / 100, 138)]

/-- A sighting at (lat 35.005, lon 138.000), the midpoint of `exTrack`. -/
def exRec1 : BRec := ⟨7001 / 200, 138, none, "", "秋田县 (本地)"⟩

/-- C1: the candidate filter excludes a record that lies on the track itself,
which the exact containment test over the full collection classifies inside:
the candidate filter compares latitudes against longitude-derived bounds
(and vice versa), so the no-false-negative invariant fails. -/
theorem C1_failing_input_eval :
    bufferContains exTrack buffer_dist (exRec1.lat, exRec1.lon) = true ∧
    List.filter (fun row => bufferContains exTrack buffer_dist (row.lat, row.lon))
      [exRec1] = [exRec1] ∧
    candidateFilter exTrack buffer_dist [exRec1] = [] ∧
    dangerousBears exTrack [exRec1] buffer_dist = [] := by
  have hc : bufferContains exTrack buffer_dist (exRec1.lat, exRec1.lon) = true := by
    norm_num [bufferContains, minDistSqToRoute, segmentsOf, exTrack, exRec1, minD,
      distSqToSegment, distSqPts, clamp01, buffer_dist, min_def, max_def]
  have hf : candidateFilter exTrack buffer_dist [exRec1] = [] := by
    norm_num [candidateFilter, bufferBounds, exTrack, exRec1, buffer_dist,
      min_def, max_def, List.filter]
  refine ⟨hc, ?_, hf, ?_⟩
  · simp [List.filter, exRec1] at hc ⊢
    simp [hc]
  · rw [dangerousBears, hf]
    rfl

/-- C5 counterexample: the buffer distance of bear_main.py is not
500 / 90000 degrees. -/
theorem C5_counterexample : ¬ (buffer_dist = 500 / 90000) := by
  norm_num [buffer_dist]

/-- C5 amended: the buffer distance is the hardcoded constant 0.005 degrees,
which corresponds to 500 m under 1° ≈ 100000 m (and to 450 m under the spec's
1° ≈ 90000 m); it is not the value 500 / 90000 the claim derives. -/
theorem C5_amended :
    buffer_dist * 100000 = 500 ∧ buffer_dist * 90000 = 450 ∧
    buffer_dist ≠ 500 / 90000 := by
  refine ⟨by norm_num [buffer_dist], by norm_num [buffer_dist],
    by norm_num [buffer_dist]⟩

/-- bear_main.py line 258: the pair handed to the geometry library's point
constructor for a sighting row, `Point(row['latitude'], row['longitude'])`. -/
def toGeomPoint (row : BRec) : Pt := (row.lat, row.lon)

/-- bear_main.py line 277: the location handed to the rendering layer,
`folium.Marker([bear['latitude'], bear['longitude']], ...)`. -/
def toRenderLoc (row : BRec) : Pt := (row.lat, row.lon)

/-- Swap the two components of a planar point. -/
def swapPt (p : Pt) : Pt := (p.2, p.1)

lemma distSqToSegment_swap (a b p : Pt) :
    distSqToSegment (swapPt a) (swapPt b) (swapPt p) = distSqToSegment a b p := by
  simp only [distSqToSegment, swapPt, distSqPts, clamp01]
  have h1 : (b.2 - a.2) ^ 2 + (b.1 - a.1) ^ 2 = (b.1 - a.1) ^ 2 + (b.2 - a.2) ^ 2 := by
    ring
  have h2 : (p.2 - a.2) * (b.2 - a.2) + (p.1 - a.1) * (b.1 - a.1)
      = (p.1 - a.1) * (b.1 - a.1) + (p.2 - a.2) * (b.2 - a.2) := by ring
  rw [h1, h2]
  split_ifs with h
  · ring
  · ring

lemma segmentsOf_map_swap (pts : List Pt) :
    segmentsOf (pts.map swapPt)
      = (segmentsOf pts).map (Prod.map swapPt swapPt) := by
  simp only [segmentsOf, ← List.map_tail, List.zip_map]

lemma minDistSqToRoute_swap (pts : List Pt) (p : Pt) :
    minDistSqToRoute (pts.map swapPt) (swapPt p) = minDistSqToRoute pts p := by
  simp only [minDistSqToRoute, segmentsOf_map_swap, List.map_map]
  congr 1
  refine List.map_congr_left (fun s _ => ?_)
  simp only [Function.comp_apply, Prod.map_fst, Prod.map_snd]
  exact distSqToSegment_swap s.1 s.2 p

lemma bufferContains_swap (pts : List Pt) (r : ℚ) (p : Pt) :
    bufferContains (pts.map swapPt) r (swapPt p) = bufferContains pts r p := by
  simp only [bufferContains, minDistSqToRoute_swap]

/-- C2 counterexample: the pair handed to the geometry point constructor for
the concrete record at latitude 35.005, longitude 138 is not in
(longitude, latitude) order. -/
theorem C2_counterexample : toGeomPoint exRec1 ≠ (exRec1.lon, exRec1.lat) := by
  norm_num [toGeomPoint, exRec1, Prod.ext_iff]

/-- C2 amended: both geometry constructions and the rendering layer receive
(latitude, longitude) pairs — one consistent ordering throughout, the reverse
of the claimed geometry ordering.  Because the swap is applied to the
corridor's line and to the tested points alike, and squared Euclidean
distance is invariant under swapping both arguments' coordinates, the
containment classification coincides with the one the (longitude, latitude)
convention would produce. -/
theorem C2_amended :
    (∀ row : BRec, toGeomPoint row = (row.lat, row.lon) ∧
      toRenderLoc row = toGeomPoint row) ∧
    (∀ (pts : List Pt) (r : ℚ) (p : Pt),
      bufferContains (pts.map swapPt) r (swapPt p) = bufferContains pts r p) :=
  ⟨fun _ => ⟨rfl, rfl⟩, bufferContains_swap⟩

lemma distSqToSegment_nonneg (a b p : Pt) : 0 ≤ distSqToSegment a b p := by
  unfold distSqToSegment
  split_ifs <;> unfold distSqPts <;> positivity

lemma foldl_min_le_init (x : ℚ) (xs : List ℚ) : xs.foldl min x ≤ x := by
  induction xs generalizing x with
  | nil => exact le_refl x
  | cons y ys ih => exact le_trans (ih (min x y)) (min_le_left x y)

lemma foldl_min_le_mem {a : ℚ} {xs : List ℚ} (h : a ∈ xs) (x : ℚ) :
    xs.foldl min x ≤ a := by
  induction xs generalizing x with
  | nil => simp at h
  | cons y ys ih =>
    rcases List.mem_cons.mp h with rfl | h2
    · exact le_trans (foldl_min_le_init (min x a) ys) (min_le_right x a)
    · exact ih h2 (min x y)

lemma foldl_min_nonneg {x : ℚ} {xs : List ℚ} (hx : 0 ≤ x)
    (hxs : ∀ a ∈ xs, 0 ≤ a) : 0 ≤ xs.foldl min x := by
  induction xs generalizing x with
  | nil => exact hx
  | cons y ys ih =>
    exact ih (le_min hx (hxs y (by simp))) (fun a ha => hxs a (by simp [ha]))

lemma minD_le {l : List ℚ} {x : ℚ} (hx : x ∈ l) {m : ℚ}
    (hm : minD l = some m) : m ≤ x := by
  cases l with
  | nil => simp at hx
  | cons y ys =>
    simp only [minD, Option.some.injEq] at hm
    subst hm
    rcases List.mem_cons.mp hx with rfl | h2
    · exact foldl_min_le_init x ys
    · exact foldl_min_le_mem h2 y

lemma minD_nonneg {l : List ℚ} (h : ∀ a ∈ l, 0 ≤ a) {m : ℚ}
    (hm : minD l = some m) : 0 ≤ m := by
  cases l with
  | nil => simp [minD] at hm
  | cons y ys =>
    simp only [minD, Option.some.injEq] at hm
    subst hm
    exact foldl_min_nonneg (h y (by simp)) (fun a ha => h a (by simp [ha]))

lemma minD_isSome {l : List ℚ} (h : l ≠ []) : ∃ m, minD l = some m := by
  cases l with
  | nil => exact absurd rfl h
  | cons y ys => exact ⟨ys.foldl min y, rfl⟩

lemma clamp01_of_bounds {t : ℚ} (ht0 : 0 ≤ t) (ht1 : t ≤ 1) : clamp01 t = t := by
  rw [clamp01, min_eq_right ht1, max_eq_right ht0]

lemma distSqToSegment_on_seg (a b : Pt) (t : ℚ) (ht0 : 0 ≤ t) (ht1 : t ≤ 1) :
    distSqToSegment a b (a.1 + t * (b.1 - a.1), a.2 + t * (b.2 - a.2)) = 0 := by
  simp only [distSqToSegment]
  split_ifs with h
  · have hdx : b.1 - a.1 = 0 := by
      nlinarith [sq_nonneg (b.1 - a.1), sq_nonneg (b.2 - a.2)]
    have hdy : b.2 - a.2 = 0 := by
      nlinarith [sq_nonneg (b.1 - a.1), sq_nonneg (b.2 - a.2)]
    simp only [distSqPts]
    rw [hdx, hdy]
    ring
  · have hnum : ((a.1 + t * (b.1 - a.1)) - a.1) * (b.1 - a.1)
        + ((a.2 + t * (b.2 - a.2)) - a.2) * (b.2 - a.2)
        = t * ((b.1 - a.1) ^ 2 + (b.2 - a.2) ^ 2) := by ring
    simp only [distSqPts]
    rw [hnum, mul_div_cancel_right₀ t h, clamp01_of_bounds ht0 ht1]
    ring

/-- C3 counterexample: on the spec's scenario-1 track, a record at exactly
buffer-distance from the nearest segment (perpendicular offset 0.005° from
the midpoint) has minimal squared distance exactly `buffer_dist ^ 2` and is
classified OUTSIDE, where the claim requires inside. -/
theorem C3_counterexample :
    minDistSqToRoute exTrack (7001 / 200, 27601 / 200)
      = some (buffer_dist ^ 2) ∧
    bufferContains exTrack buffer_dist (7001 / 200, 27601 / 200) = false := by
  have h : minDistSqToRoute exTrack (7001 / 200, 27601 / 200)
      = some (buffer_dist ^ 2) := by
    norm_num [minDistSqToRoute, segmentsOf, exTrack, minD, distSqToSegment,
      distSqPts, clamp01, buffer_dist, min_def, max_def]
  refine ⟨h, ?_⟩
  rw [bufferContains, h]
  simp

/-- C3 amended: the containment test is boundary-exclusive, not
boundary-inclusive — shapely's `contains` tests interior membership.  Every
point lying on the track line itself (a convex combination of a segment's
endpoints) classifies inside for any positive radius, while every point whose
squared distance to the track is `r ^ 2` or more (in particular a point at
exactly the buffer radius) classifies outside. -/
theorem C3_amended (pts : List Pt) (r : ℚ) (hr : 0 < r) :
    (∀ a b t, (a, b) ∈ segmentsOf pts → 0 ≤ t → t ≤ 1 →
      bufferContains pts r (a.1 + t * (b.1 - a.1), a.2 + t * (b.2 - a.2))
        = true) ∧
    (∀ p d, minDistSqToRoute pts p = some d → r ^ 2 ≤ d →
      bufferContains pts r p = false) := by
  constructor
  · intro a b t hmem ht0 ht1
    have hzero : distSqToSegment a b
        (a.1 + t * (b.1 - a.1), a.2 + t * (b.2 - a.2)) = 0 :=
      distSqToSegment_on_seg a b t ht0 ht1
    have hmem2 : (0 : ℚ) ∈ (segmentsOf pts).map
        (fun s => distSqToSegment s.1 s.2
          (a.1 + t * (b.1 - a.1), a.2 + t * (b.2 - a.2))) := by
      rw [← hzero]
      exact List.mem_map_of_mem _ hmem
    obtain ⟨m, hm⟩ := minD_isSome (List.ne_nil_of_mem hmem2)
    have hle : m ≤ 0 := minD_le hmem2 hm
    have hge : 0 ≤ m := minD_nonneg (fun x hx => by
      obtain ⟨s, _, rfl⟩ := List.mem_map.mp hx
      exact distSqToSegment_nonneg s.1 s.2 _) hm
    rw [bufferContains, minDistSqToRoute, hm]
    simp only [decide_eq_true_eq]
    rw [le_antisymm hle hge]
    positivity
  · intro p d hd hrd
    rw [bufferContains, hd]
    simp [not_lt.mpr hrd]

/-- C3 witness: the midpoint of the scenario-1 track, written as the convex
combination of the segment's endpoints, classifies inside. -/
theorem C3_witness :
    bufferContains exTrack buffer_dist
      ((35 : ℚ) + 1 / 2 * (3501 / 100 - 35), (138 : ℚ) + 1 / 2 * (138 - 138))
        = true := by
  have h := (C3_amended exTrack buffer_dist (by norm_num [buffer_dist])).1
    ((35 : ℚ), 138) (3501 / 100, 138) (1 / 2)
    (by simp [segmentsOf, exTrack]) (by norm_num) (by norm_num)
  exact h

/-- Result of `gpxpy.parse` in bear_main.py lines 232–237: either the parse
raises (malformed file) or it yields the flattened list of (lat, lon)
track points. -/
inductive GpxInput
  | malformed
  | ok (pts : List Pt)

/-- The user-visible outcome of the detection block of bear_main.py
lines 230–295. -/
inductive DetectOutcome
  | parseFailMsg
  | noPointsWarn
  | report (dangers : List BRec)
deriving DecidableEq

/-- bear_main.py lines 230–295: the module-level GPX handling.  A malformed
file raises in `gpxpy.parse` and lands in the blanket
`except Exception: st.error("GPX 解析失败: ...")`.  An empty point list takes
the `else: st.warning(...)` branch.  A single-point list reaches
`LineString(points)`, which raises (shapely requires at least two
coordinates), and is caught by the same blanket `except` — producing the same
generic parse-failure report.  With two or more points the detection runs and
reports `dangerous_bears`. -/
def detectionBlock (g : GpxInput) (records : List BRec) : DetectOutcome :=
  match g with
  | .malformed => .parseFailMsg
  | .ok pts =>
    if pts.isEmpty then .noPointsWarn
    else if pts.length < 2 then .parseFailMsg
    else .report (dangerousBears pts records buffer_dist)

/-- bear_gpx.py line 91: `route_points[::50]` — the elements of a list at
indices 0, 50, 100, …  (Python slice semantics: element `i` of the slice is
element `50 * i` of the list; the slice's length is ⌈length / 50⌉.) -/
def slice50 {α : Type} (l : List α) : List α :=
  (List.range ((l.length + 49) / 50)).filterMap (fun i => l[50 * i]?)

/-- bear_gpx.py lines 90–95: sampled route — every 50th point, or the whole
route when it has fewer than 50 points. -/
def sampledRoute {α : Type} (route_points : List α) : List α :=
  if route_points.length < 50 then route_points else slice50 route_points

/-- bear_gpx.py lines 87–103: `check_proximity`.  The geodesic distance of
geopy is an external collaborator, abstracted as the function argument
`dist`; the loop appends each row the first time a sampled route point lies
within the threshold and then breaks, which is exactly a filter by an
existential over the sampled route, in row order. -/
def check_proximity (dist : Pt → Pt → ℚ) (route_points : List Pt)
    (bear_df : List BRec) (threshold_km : ℚ) : List BRec :=
  bear_df.filter (fun bear => (sampledRoute route_points).any
    (fun pt => decide (dist (bear.lat, bear.lon) pt ≤ threshold_km)))

lemma filterMap_all_some_getElem {α β : Type} (f : α → Option β)
    (l : List α) (hf : ∀ x ∈ l, (f x).isSome) (i : ℕ) :
    (l.filterMap f)[i]? = l[i]?.bind f := by
  induction l generalizing i with
  | nil => simp
  | cons x xs ih =>
    obtain ⟨b, hb⟩ := Option.isSome_iff_exists.mp (hf x (by simp))
    rw [List.filterMap_cons_some hb]
    cases i with
    | zero => simp [hb]
    | succ j => simpa using ih (fun y hy => hf y (by simp [hy])) j

lemma filterMap_all_some_length {α β : Type} (f : α → Option β)
    (l : List α) (hf : ∀ x ∈ l, (f x).isSome) :
    (l.filterMap f).length = l.length := by
  induction l with
  | nil => simp
  | cons x xs ih =>
    obtain ⟨b, hb⟩ := Option.isSome_iff_exists.mp (hf x (by simp))
    rw [List.filterMap_cons_some hb]
    simpa using ih (fun y hy => hf y (by simp [hy]))

lemma slice50_getElem {α : Type} (l : List α) (i : ℕ) :
    (slice50 l)[i]? = l[50 * i]? := by
  rw [slice50, filterMap_all_some_getElem _ _ (fun x hx => by
    rw [List.mem_range] at hx
    simp [List.getElem?_eq_getElem (show 50 * x < l.length by omega)])]
  by_cases hik : i < (l.length + 49) / 50
  · rw [List.getElem?_range hik]
    rfl
  · rw [List.getElem?_eq_none (by simpa using hik)]
    rw [List.getElem?_eq_none (by push_neg at hik; omega)]
    rfl

lemma slice50_length {α : Type} (l : List α) :
    (slice50 l).length = (l.length + 49) / 50 := by
  rw [slice50, filterMap_all_some_length _ _ (fun x hx => by
    rw [List.mem_range] at hx
    simp [List.getElem?_eq_getElem (show 50 * x < l.length by omega)])]
  exact List.length_range _

/-- A 52-point track: points (0,0), (1,0), …, (51,0). -/
def ex52 : List Pt := (List.range 52).map (fun i : ℕ => ((i : ℚ), 0))

/-- C6 counterexample: a 52-point track is at or under the claimed cap of
500 points, yet it IS down-sampled (to its points at indices 0 and 50), and
its last point is not preserved. -/
theorem C6_counterexample :
    ex52.length = 52 ∧ ex52.length ≤ 500 ∧
    sampledRoute ex52 ≠ ex52 ∧ (sampledRoute ex52).length = 2 ∧
    (sampledRoute ex52).getLast? ≠ ex52.getLast? := by
  have hlen : ex52.length = 52 := by simp [ex52]
  have hs : (sampledRoute ex52).length = 2 := by
    rw [sampledRoute, if_neg (by omega), slice50_length, hlen]
  refine ⟨hlen, by omega, ?_, hs, ?_⟩
  · intro h
    rw [h, hlen] at hs
    omega
  · intro h
    rw [List.getLast?_eq_getElem?, List.getLast?_eq_getElem?, hs, hlen] at h
    rw [sampledRoute, if_neg (by omega), slice50_getElem] at h
    have h50 : ex52[(50 : ℕ)]? = some ((((50 : ℕ)) : ℚ), 0) := by
      rw [ex52, List.getElem?_map, List.getElem?_range (by omega)]
      rfl
    have h51 : ex52[(51 : ℕ)]? = some ((((51 : ℕ)) : ℚ), 0) := by
      rw [ex52, List.getElem?_map, List.getElem?_range (by omega)]
      rfl
    rw [show (2 - 1) * 50 = 50 from rfl, h50, show (52 - 1 : ℕ) = 51 from rfl,
      h51] at h
    simp only [Option.some.injEq, Prod.mk.injEq] at h
    norm_num at h

/-- C6 amended: `check_proximity` down-samples whenever the track has at
least 50 points (not only above a 500-point cap), taking every 50th point —
the i-th sampled point is the (50·i)-th track point, the sampled length is
⌈length / 50⌉, and the first point is preserved; tracks with fewer than 50
points are used in full.  (The last point is preserved only when the length
is one more than a multiple of 50 — see the counterexample.) -/
theorem C6_amended (route : List Pt) :
    (route.length < 50 → sampledRoute route = route) ∧
    (50 ≤ route.length →
      (sampledRoute route).length = (route.length + 49) / 50) ∧
    (50 ≤ route.length → ∀ i : ℕ, (sampledRoute route)[i]? = route[50 * i]?) ∧
    (sampledRoute route)[0]? = route[0]? := by
  refine ⟨fun h => by rw [sampledRoute, if_pos h], fun h => ?_, fun h i => ?_,
    ?_⟩
  · rw [sampledRoute, if_neg (by omega), slice50_length]
  · rw [sampledRoute, if_neg (by omega), slice50_getElem]
  · by_cases h : route.length < 50
    · rw [sampledRoute, if_pos h]
    · rw [sampledRoute, if_neg h, slice50_getElem]

/-- C6 witness: on the concrete 52-point track, the sampled length is
⌈52 / 50⌉ = 2 and the second sampled point is the track's point 50. -/
theorem C6_witness :
    (sampledRoute ex52).length = (ex52.length + 49) / 50 ∧
    (sampledRoute ex52)[1]? = ex52[50 * 1]? := by
  have h : (50 : ℕ) ≤ ex52.length := by simp [ex52]
  exact ⟨(C6_amended ex52).2.1 h, (C6_amended ex52).2.2.1 h 1⟩

/-- C4 counterexample: a one-point track produces exactly the same outcome
as a malformed GPX file — the generic parse-failure report — so no distinct
insufficient-points error is distinguishable by the caller. -/
theorem C4_counterexample :
    detectionBlock (GpxInput.ok [((35 : ℚ), 138)]) [] = DetectOutcome.parseFailMsg ∧
    detectionBlock GpxInput.malformed [] = DetectOutcome.parseFailMsg := by
  constructor
  · rw [detectionBlock]
    rfl
  · rfl

/-- C4 amended: there is no distinct insufficient-points error.  In
bear_main.py a one-point track makes `LineString` raise inside the blanket
`except`, yielding the same generic parse-failure report as a malformed
file; an empty track yields a warning (detection skipped); with two or more
points detection runs.  bear_gpx.py's `check_proximity` runs detection on a
one-point route without any error. -/
theorem C4_amended (p q : Pt) (rest : List Pt) (recs : List BRec)
    (dist : Pt → Pt → ℚ) (bears : List BRec) (t : ℚ) :
    detectionBlock (GpxInput.ok [p]) recs = DetectOutcome.parseFailMsg ∧
    detectionBlock GpxInput.malformed recs = DetectOutcome.parseFailMsg ∧
    detectionBlock (GpxInput.ok []) recs = DetectOutcome.noPointsWarn ∧
    detectionBlock (GpxInput.ok (p :: q :: rest)) recs
      = DetectOutcome.report (dangerousBears (p :: q :: rest) recs buffer_dist) ∧
    check_proximity dist [p] bears t
      = bears.filter (fun b => decide (dist (b.lat, b.lon) p ≤ t)) := by
  refine ⟨by rw [detectionBlock]; rfl, rfl, rfl, ?_, ?_⟩
  · rw [detectionBlock]
    have h2 : ¬ (p :: q :: rest).length < 2 := by simp
    simp [h2]
  · rw [check_proximity]
    have hs : sampledRoute [p] = [p] := by rw [sampledRoute]; simp
    rw [hs]
    simp [List.any]

/-- Two successive runs of bear_gpx.py's classifier on the same input. -/
def runTwiceProx (dist : Pt → Pt → ℚ) (route_points : List Pt)
    (bear_df : List BRec) (threshold_km : ℚ) : List BRec × List BRec :=
  (check_proximity dist route_points bear_df threshold_km,
   check_proximity dist route_points bear_df threshold_km)

/-- Two successive runs of bear_main.py's classifier on the same input. -/
def runTwiceMain (pts : List Pt) (records : List BRec) (r : ℚ) :
    List BRec × List BRec :=
  (dangerousBears pts records r, dangerousBears pts records r)

/-- C8: both classifiers are deterministic — running either twice on the same
(track, collection, radius) input yields identical result lists, and the
result order is fixed by the input's row order (the output is always a
sublist of the input collection). -/
theorem C8_idempotent (dist : Pt → Pt → ℚ) (route : List Pt)
    (bears : List BRec) (t : ℚ) (pts : List Pt) (recs : List BRec) (r : ℚ) :
    (runTwiceProx dist route bears t).1 = (runTwiceProx dist route bears t).2 ∧
    List.Sublist (runTwiceProx dist route bears t).1 bears ∧
    (runTwiceMain pts recs r).1 = (runTwiceMain pts recs r).2 ∧
    List.Sublist (runTwiceMain pts recs r).1 recs := by
  refine ⟨rfl, List.filter_sublist _, rfl, ?_⟩
  exact (List.filter_sublist _).trans (List.filter_sublist _)

/-- C9: each input row contributes at most one output row of
`check_proximity` — the output is a sublist of the input, and when the input
rows are pairwise distinct every record occurs at most once in the output,
however many sampled route points it is near. -/
theorem C9_at_most_once (dist : Pt → Pt → ℚ) (route : List Pt)
    (bears : List BRec) (t : ℚ) :
    List.Sublist (check_proximity dist route bears t) bears ∧
    (bears.Nodup → ∀ rec : BRec,
      (check_proximity dist route bears t).count rec ≤ 1) := by
  refine ⟨List.filter_sublist _, fun hnd rec => ?_⟩
  exact List.nodup_iff_count_le_one.mp (hnd.sublist (List.filter_sublist _)) rec

/-- A trivial stand-in for the geodesic distance collaborator. -/
def dist0 : Pt → Pt → ℚ := fun _ _ => 0

/-- C9 witness: with a singleton collection, every sampled point within
threshold, the record still occurs at most once. -/
theorem C9_witness :
    (check_proximity dist0 [((35 : ℚ), 138)] [exRec1] 1).count exRec1 ≤ 1 :=
  (C9_at_most_once dist0 [((35 : ℚ), 138)] [exRec1] 1).2 (by simp) exRec1

/-- The variable environment of `check_proximity`'s loop: the accumulating
`dangers` list and the two input variables, threaded explicitly so that the
frame property (inputs never written) is a statement, not a convention. -/
structure ProxState where
  dangers : List BRec
  route_points : List Pt
  bear_df : List BRec

/-- One iteration of the `for _, bear in bear_df.iterrows()` loop of
bear_gpx.py lines 97–102: append `bear` to `dangers` when some sampled route
point is within the threshold (the `break` makes this a single append). -/
def proxStep (dist : Pt → Pt → ℚ) (threshold_km : ℚ) (sampled : List Pt)
    (s : ProxState) (bear : BRec) : ProxState :=
  if sampled.any (fun pt => decide (dist (bear.lat, bear.lon) pt ≤ threshold_km))
  then { s with dangers := s.dangers ++ [bear] } else s

/-- `check_proximity` as a state-threading run over its loop. -/
def check_proximity_run (dist : Pt → Pt → ℚ) (route_points : List Pt)
    (bear_df : List BRec) (threshold_km : ℚ) : ProxState :=
  bear_df.foldl (proxStep dist threshold_km (sampledRoute route_points))
    ⟨[], route_points, bear_df⟩

lemma proxRun_aux (dist : Pt → Pt → ℚ) (t : ℚ) (sampled : List Pt)
    (l : List BRec) (s : ProxState) :
    (l.foldl (proxStep dist t sampled) s).route_points = s.route_points ∧
    (l.foldl (proxStep dist t sampled) s).bear_df = s.bear_df ∧
    (l.foldl (proxStep dist t sampled) s).dangers
      = s.dangers ++ l.filter (fun bear => sampled.any
          (fun pt => decide (dist (bear.lat, bear.lon) pt ≤ t))) := by
  induction l generalizing s with
  | nil => simp
  | cons x xs ih =>
    rw [List.foldl_cons, List.filter_cons]
    by_cases hx : (sampled.any
        (fun pt => decide (dist (x.lat, x.lon) pt ≤ t))) = true
    · rw [proxStep, if_pos hx, if_pos hx]
      refine ⟨(ih _).1, (ih _).2.1, ?_⟩
      rw [(ih _).2.2]
      simp
    · rw [proxStep, if_neg hx, if_neg hx]
      exact ih s

/-- C10: `check_proximity` leaves its inputs untouched — after the loop the
`route_points` and `bear_df` variables hold exactly the values passed in —
and its result rows are drawn only from the rows of the input collection
(the dangers list is a sublist of `bear_df`). -/
theorem C10_frame (dist : Pt → Pt → ℚ) (route : List Pt) (bears : List BRec)
    (t : ℚ) :
    (check_proximity_run dist route bears t).route_points = route ∧
    (check_proximity_run dist route bears t).bear_df = bears ∧
    (check_proximity_run dist route bears t).dangers
      = check_proximity dist route bears t ∧
    List.Sublist (check_proximity_run dist route bears t).dangers bears := by
  have h := proxRun_aux dist t (sampledRoute route) bears ⟨[], route, bears⟩
  rw [check_proximity_run]
  refine ⟨h.1, h.2.1, ?_, ?_⟩
  · rw [h.2.2, check_proximity]
    simp
  · rw [h.2.2, List.nil_append]
    exact List.filter_sublist bears

/-- One raw row of the akita DataFrame of bear_main.py after
`pd.DataFrame(raw_data['result'])` and the coercions of lines 57–59
(`pd.to_numeric(..., errors='coerce')`, `pd.to_datetime(..., errors='coerce')`):
a missing or non-numeric coordinate is `none`, and an absent or unparseable
timestamp is `none` (NaT). -/
structure RawAkitaRow where
  latitude : Option ℚ
  longitude : Option ℚ
  sighting_datetime : Option ℤ
  sighting_condition : Option String

/-- The source tag added at bear_main.py line 68. -/
def akitaSource : String := "秋田县 (本地)"

/-- bear_main.py lines 56–70 (`load_akita_data` after the coercions): fill
missing descriptions with "无详细描述" (lines 62–65), tag the source
(line 68), select the five columns and drop exactly the rows whose latitude
or longitude is missing — `dropna(subset=['latitude', 'longitude'])`
(line 70).  Timestamps, including `none`, pass through unchanged. -/
def load_akita_data (rows : List RawAkitaRow) : List BRec :=
  rows.filterMap (fun r =>
    match r.latitude, r.longitude with
    | some la, some lo =>
      some ⟨la, lo, r.sighting_datetime,
        r.sighting_condition.getD "无详细描述", akitaSource⟩
    | _, _ => none)

/-- One marker object of the TV-Asahi JSON feed consumed by bear_gpx.py
lines 36–61 (absent coordinate keys are `none`). -/
structure Marker where
  title : String
  latitude : Option ℚ
  longitude : Option ℚ
  description : String
  link_url : String

/-- One assembled row of bear_gpx.py lines 54–61, before the date-based
drop of line 65. -/
structure TRow where
  date : Option (ℕ × ℕ × ℕ)
  title : String
  desc : String
  lat : ℚ
  lon : ℚ
  url : String
deriving DecidableEq

/-- Value of a (non-empty) ASCII digit run, as Python's `int`. -/
def digitsToNat (ds : List Char) : ℕ :=
  ds.foldl (fun n c => 10 * n + (c.toNat - 48)) 0

/-- Python's `needle in haystack` substring test on character lists. -/
def containsSeq (needle hay : List Char) : Bool :=
  hay.tails.any (fun t => needle.isPrefixOf t)

/-- Gregorian leap year, as Python's `datetime` uses it. -/
def isLeap (y : ℕ) : Bool := (y % 4 == 0 && y % 100 != 0) || y % 400 == 0

/-- Days in a month, as Python's `datetime` validates them. -/
def daysInMonth (y m : ℕ) : ℕ :=
  if m == 2 then (if isLeap y then 29 else 28)
  else if m == 4 || m == 6 || m == 9 || m == 11 then 30
  else 31

/-- The triples `datetime(year, month, day)` accepts (bear_gpx.py line 47);
anything else raises there and yields `date_obj = None`. -/
def validDate (y m d : ℕ) : Bool :=
  decide (1 ≤ y) && decide (y ≤ 9999) && decide (1 ≤ m) && decide (m ≤ 12) &&
  decide (1 ≤ d) && decide (d ≤ daysInMonth y m)

/-- The regex fragment `(\d+)年(\d+)月(\d+)日】` matched at a position just
after a `【` (`\d` modelled as the ASCII digits, the runs maximal as with a
greedy `\d+`). -/
def parseDateFrom (cs : List Char) : Option (ℕ × ℕ × ℕ) :=
  let ys := cs.takeWhile Char.isDigit
  if ys.isEmpty then none else
  match cs.dropWhile Char.isDigit with
  | '年' :: r2 =>
    let ms := r2.takeWhile Char.isDigit
    if ms.isEmpty then none else
    match r2.dropWhile Char.isDigit with
    | '月' :: r4 =>
      let ds := r4.takeWhile Char.isDigit
      if ds.isEmpty then none else
      match r4.dropWhile Char.isDigit with
      | '日' :: '】' :: _ => some (digitsToNat ys, digitsToNat ms, digitsToNat ds)
      | _ => none
    | _ => none
  | _ => none

/-- Leftmost match of `【(\d+)年(\d+)月(\d+)日】` in a character list
(`date_pattern.search`, bear_gpx.py lines 34 and 43). -/
def findDatePattern : List Char → Option (ℕ × ℕ × ℕ)
  | [] => none
  | c :: cs =>
    if c = '【' then
      match parseDateFrom cs with
      | some v => some v
      | none => findDatePattern cs
    else findDatePattern cs

/-- bear_gpx.py lines 42–51: regex search over the title, then the
`datetime(...)` construction guarded by try/except — an invalid triple gives
`None`, a title without the pattern gives `None`. -/
def extractDate (title : String) : Option (ℕ × ℕ × ℕ) :=
  match findDatePattern title.toList with
  | some (y, m, d) => if validDate y m d then some (y, m, d) else none
  | none => none

/-- Per-marker outcome inside the loop of bear_gpx.py lines 36–61. -/
inductive ItemRes
  | skip
  | fatal
  | row (r : TRow)

/-- bear_gpx.py lines 36–61 for one marker: the 調整用 / latitude > 80 skip
filter (line 38, reading `item.get('latitude', 0)`), then the row assembly
(lines 54–61) — where `float(item.get('latitude'))` on a missing coordinate
raises, an exception the outer `except` turns into an empty result. -/
def processMarker (m : Marker) : ItemRes :=
  if containsSeq "調整用".toList m.title.toList
      || decide ((m.latitude.getD 0) > 80) then .skip
  else
    match m.latitude, m.longitude with
    | some la, some lo =>
      .row ⟨extractDate m.title, m.title, m.description, la, lo, m.link_url⟩
    | _, _ => .fatal

/-- The marker loop of bear_gpx.py lines 36–61 (`none` = an exception
escaped to the outer `except`). -/
def collectMarkers : List Marker → Option (List TRow)
  | [] => some []
  | m :: ms =>
    match processMarker m with
    | .skip => collectMarkers ms
    | .fatal => none
    | .row r => (collectMarkers ms).map (fun rs => r :: rs)

/-- bear_gpx.py `load_tvasahi_data` from the fetched marker list on: build
the rows, then delete every row without a date —
`df.dropna(subset=['date'])`, line 65 ("删除没有日期的脏数据").  Any
exception during assembly yields an empty collection via the outer
`except`. -/
def load_tvasahi_data (markers : List Marker) : List TRow :=
  match collectMarkers markers with
  | none => []
  | some rows => rows.filter (fun r => r.date.isSome)

/-- A marker with valid coordinates whose title holds no parseable date. -/
def exMarker : Marker := ⟨"クマ出没注意", some 35, some 138, "住宅街で目撃", ""⟩

/-- C7 counterexample: a sighting record with present, numeric coordinates
but an unparseable date is NOT retained by bear_gpx.py's ingestion — the
tvasahi loader returns the empty collection for it. -/
theorem C7_counterexample :
    exMarker.latitude = some 35 ∧ exMarker.longitude = some 138 ∧
    extractDate exMarker.title = none ∧
    load_tvasahi_data [exMarker] = [] := by
  refine ⟨rfl, rfl, rfl, ?_⟩
  rfl

/-- C7 amended: in bear_main.py's akita loader a record with present
coordinates is retained whatever its timestamp — in particular with a `none`
(absent/unparseable) timestamp — only missing/non-numeric coordinates drop a
row; bear_gpx.py's tvasahi loader instead keeps only records with a parsed
date: every record it emits has one. -/
theorem C7_amended :
    (∀ (rows : List RawAkitaRow) (r : RawAkitaRow) (la lo : ℚ),
      r ∈ rows → r.latitude = some la → r.longitude = some lo →
      (⟨la, lo, r.sighting_datetime, r.sighting_condition.getD "无详细描述",
        akitaSource⟩ : BRec) ∈ load_akita_data rows) ∧
    (∀ (markers : List Marker) (r : TRow),
      r ∈ load_tvasahi_data markers → r.date.isSome = true) := by
  constructor
  · intro rows r la lo hmem hla hlo
    rw [load_akita_data]
    refine List.mem_filterMap.mpr ⟨r, hmem, ?_⟩
    rw [hla, hlo]
  · intro markers r hr
    rw [load_tvasahi_data] at hr
    rcases h : collectMarkers markers with _ | rows
    · rw [h] at hr
      simp at hr
    · rw [h] at hr
      have hr2 : r ∈ List.filter (fun r => r.date.isSome) rows := hr
      exact (List.mem_filter.mp hr2).2

/-- A raw akita row with numeric coordinates and a NaT timestamp. -/
def exAkitaRow : RawAkitaRow := ⟨some 35, some 138, none, none⟩

/-- C7 witness: the concrete coordinate-complete, timestamp-less akita row is
retained with its `none` timestamp, and the tvasahi conclusion holds for the
concrete dropped-marker run vacuously checked on its own output. -/
theorem C7_witness :
    (⟨35, 138, none, "无详细描述", akitaSource⟩ : BRec)
      ∈ load_akita_data [exAkitaRow] :=
  C7_amended.1 [exAkitaRow] exAkitaRow 35 138 (by simp) rfl rfl

end BearGpx
